import Mathlib

/-!
Verification of the tic-tac-toe game core of this repository
(`backend/routes/game.js`): board model (`checkWinner`), the join and move
operations of the game state machine, the history/stats recorder, and the
error behaviour of each operation.

The JavaScript handlers are shallowly embedded: a cell of the board
(`''`/`'X'`/`'O'`) becomes the inductive `Cell`; the DB row of a game
becomes the structure `Game`; each handler becomes a pure function from its
inputs (and the stored game) to an `Except` of a typed error or the updated
state.  The `position` field of a move request is a JSON number, modelled
as `Option ℚ` (`none` = `undefined`); JavaScript array indexing at a
rational index is modelled by `jsIndex`, which yields `none` (= `undefined`)
at a non-integer or out-of-range index.
-/

/-- A board cell: `''`, `'X'` or `'O'` in the JS representation. -/
inductive Cell
  | empty
  | X
  | O
deriving DecidableEq

/-- A player symbol: `'X'` or `'O'`. -/
inductive Player
  | X
  | O
deriving DecidableEq

/-- A decided outcome as returned by `checkWinner`: `'X'`, `'O'` or `'D'`
(draw).  `checkWinner` returns `Option Winner`, `none` modelling `null`
(game continues). -/
inductive Winner
  | X
  | O
  | D
deriving DecidableEq

/-- Game status: `'waiting'`, `'in_progress'` or `'finished'`. -/
inductive Status
  | waiting
  | in_progress
  | finished
deriving DecidableEq

/-- The mark a player writes into a cell (`board[position] = playerSymbol`). -/
def Cell.ofPlayer : Player → Cell
  | Player.X => Cell.X
  | Player.O => Cell.O

/-- The value `checkWinner` returns when a triple is won by this cell
(`return board[a]`): `'X'` or `'O'`; an empty cell wins nothing. -/
def Cell.winner : Cell → Option Winner
  | Cell.empty => none
  | Cell.X => some Winner.X
  | Cell.O => some Winner.O

/-- JS array read `board[i]` at a natural index: the element when `i` is in
range, and `undefined` — which is falsy and `!== ''`, like an empty cell in
every test `checkWinner` makes — otherwise.  `getD` with default
`Cell.empty` reproduces exactly those comparisons. -/
def cellAt (board : List Cell) (i : Nat) : Cell :=
  board.getD i Cell.empty

/-- The eight winning combinations of `checkWinner`, in source order:
three rows, three columns, two diagonals. -/
def winPatterns : List (Nat × Nat × Nat) :=
  [(0, 1, 2), (3, 4, 5), (6, 7, 8),
   (0, 3, 6), (1, 4, 7), (2, 5, 8),
   (0, 4, 8), (2, 4, 6)]

/-- The `for (const pattern of winPatterns)` loop of `checkWinner`: returns
`board[a]` for the first pattern with `board[a] && board[a] === board[b] &&
board[a] === board[c]`, and `none` when the loop falls through. -/
def firstWin (board : List Cell) : List (Nat × Nat × Nat) → Option Winner
  | [] => none
  | (a, b, c) :: rest =>
    if cellAt board a != Cell.empty && cellAt board a == cellAt board b
        && cellAt board a == cellAt board c then
      Cell.winner (cellAt board a)
    else
      firstWin board rest

/-- `checkWinner(board)` of `backend/routes/game.js`: first winning pattern
in the fixed order, else `'D'` when `board.every(cell => cell !== '')`,
else `null`. -/
def checkWinner (board : List Cell) : Option Winner :=
  match firstWin board winPatterns with
  | some w => some w
  | none =>
    if board.all (fun cell => cell != Cell.empty) then some Winner.D
    else none

/-- Spec 4.1: a triple wins when its three cells are all non-empty and
equal. -/
def tripleWins (board : List Cell) (t : Nat × Nat × Nat) : Bool :=
  cellAt board t.1 != Cell.empty && cellAt board t.1 == cellAt board t.2.1
    && cellAt board t.1 == cellAt board t.2.2

/-- The board-model contract as the spec words it (§4.1): evaluate the 8
fixed triples in the listed order; return the common symbol of the first
triple whose three cells are all non-empty and equal; if none and no cell
is empty, Draw; otherwise no decision yet. -/
def specOutcome (board : List Cell) : Option Winner :=
  match winPatterns.find? (tripleWins board) with
  | some t => Cell.winner (cellAt board t.1)
  | none =>
    if board.all (fun cell => cell != Cell.empty) then some Winner.D
    else none

/-- A row of the `games` table, as read and written by the route handlers.
`player_o_id` is `NULL` until someone joins; `winner` and `finished_at`
are `NULL` until the game finishes. -/
structure Game where
  id : Nat
  player_x_id : Nat
  player_o_id : Option Nat
  board : List Cell
  current_turn : Player
  winner : Option Winner
  status : Status
  created_at : Nat
  finished_at : Option Nat
deriving DecidableEq

/-- A row of the `game_history` table as inserted by the finishing branch
of the move handler: game reference, both player references, the winning
user (`NULL` on a draw) and the move count. -/
structure HistoryRecord where
  game_id : Nat
  player_x_id : Nat
  player_o_id : Option Nat
  winner_id : Option Nat
  moves_count : Nat
deriving DecidableEq

/-- The typed failures of the move handler, in the order its guards test
them. -/
inductive MoveError
  | InvalidPosition
  | NotFound
  | InvalidState
  | Forbidden
  | WrongTurn
  | CellOccupied
deriving DecidableEq

/-- The typed failures of the join handler, in the order its guards test
them. -/
inductive JoinError
  | NotFound
  | InvalidState
  | SelfJoin
  | AlreadyFull
deriving DecidableEq

/-- Modelled from the spec (§7 error taxonomy): the StateConflict kind is
"action illegal given current game state: wrong turn, occupied cell, wrong
status, self-join"; InvalidPosition is of the Validation kind and NotFound
and Forbidden are their own kinds. -/
def MoveError.isStateConflict : MoveError → Bool
  | MoveError.InvalidState => true
  | MoveError.WrongTurn => true
  | MoveError.CellOccupied => true
  | MoveError.InvalidPosition => false
  | MoveError.NotFound => false
  | MoveError.Forbidden => false

/-- JS array read `board[q]` at a JSON-number index: the element when `q`
is an integer within range, `undefined` (`none`) otherwise — in particular
at every non-integer index such as `4.5`. -/
def jsIndex (board : List Cell) (q : ℚ) : Option Cell :=
  if q.den = 1 ∧ 0 ≤ q.num ∧ q.num < (board.length : ℤ) then
    some (cellAt board q.num.toNat)
  else
    none

/-- Resolution of the acting player's symbol in the move handler:
`playerSymbol = 'X'` when the actor is `player_x_id`, `'O'` when the actor
is `player_o_id`, and no symbol (403) otherwise. -/
def symbolOf (game : Game) (playerId : Nat) : Option Player :=
  if game.player_x_id = playerId then some Player.X
  else if game.player_o_id = some playerId then some Player.O
  else none

/-- `playerSymbol === 'X' ? 'O' : 'X'` — the next turn after a move. -/
def otherPlayer : Player → Player
  | Player.X => Player.O
  | Player.O => Player.X

/-- The game row created by `POST /api/games`: the creator as player X, the
schema defaults for the rest (empty board, turn `'X'`, status `'waiting'`). -/
def createGame (playerId : Nat) (gid : Nat) (now : Nat) : Game :=
  { id := gid
    player_x_id := playerId
    player_o_id := none
    board := List.replicate 9 Cell.empty
    current_turn := Player.X
    winner := none
    status := Status.waiting
    created_at := now
    finished_at := none }

/-- `POST /api/games/:id/join`: guards in source order (missing game, not
waiting, own game, already full), then the update setting `player_o_id` and
`status = 'in_progress'`. -/
def join (store : Option Game) (playerId : Nat) : Except JoinError Game :=
  match store with
  | none => Except.error JoinError.NotFound
  | some game =>
    if game.status ≠ Status.waiting then Except.error JoinError.InvalidState
    else if game.player_x_id = playerId then Except.error JoinError.SelfJoin
    else if game.player_o_id.isSome then Except.error JoinError.AlreadyFull
    else Except.ok { game with player_o_id := some playerId, status := Status.in_progress }

/-- `winner === 'X' ? game.player_x_id : (winner === 'O' ? game.player_o_id
: null)` — the finished game's winning user reference. -/
def winnerRef (game : Game) : Winner → Option Nat
  | Winner.X => some game.player_x_id
  | Winner.O => game.player_o_id
  | Winner.D => none

/-- The accepted-move tail of the move handler: write the symbol at index
`i`, run `checkWinner`, flip the turn; on a decision also set winner,
status `'finished'` and `finished_at`, and build the `game_history` row
(winner's user id, `NULL` on `'D'`; `moves_count` = non-empty cells). -/
def applyMove (game : Game) (playerSymbol : Player) (i : Nat) (now : Nat) :
    Game × Option HistoryRecord :=
  let board := game.board.set i (Cell.ofPlayer playerSymbol)
  let nextTurn := if playerSymbol = Player.X then Player.O else Player.X
  match checkWinner board with
  | some w =>
    let winnerId := winnerRef game w
    let movesCount := (board.filter (fun cell => cell != Cell.empty)).length
    ({ game with
        board := board
        current_turn := nextTurn
        winner := some w
        status := Status.finished
        finished_at := some now },
     some { game_id := game.id
            player_x_id := game.player_x_id
            player_o_id := game.player_o_id
            winner_id := winnerId
            moves_count := movesCount })
  | none =>
    ({ game with board := board, current_turn := nextTurn }, none)

/-- `POST /api/games/:id/move`: position guard (`undefined`, `< 0`, `> 8`)
before the game lookup, then the state guards in source order (missing
game, not in progress, not a participant, not your turn, occupied cell —
the last via `board[position] !== ''`), then the accepted-move tail. -/
def move (store : Option Game) (playerId : Nat) (position : Option ℚ) (now : Nat) :
    Except MoveError (Game × Option HistoryRecord) :=
  match position with
  | none => Except.error MoveError.InvalidPosition
  | some q =>
    if q < 0 ∨ q > 8 then Except.error MoveError.InvalidPosition
    else
      match store with
      | none => Except.error MoveError.NotFound
      | some game =>
        if game.status ≠ Status.in_progress then Except.error MoveError.InvalidState
        else
          match symbolOf game playerId with
          | none => Except.error MoveError.Forbidden
          | some playerSymbol =>
            if game.current_turn ≠ playerSymbol then Except.error MoveError.WrongTurn
            else if jsIndex game.board q ≠ some Cell.empty then
              Except.error MoveError.CellOccupied
            else
              Except.ok (applyMove game playerSymbol q.num.toNat now)

/-- The persistent state the move handler touches: the game row and the
`game_history` table. -/
structure Store where
  game : Option Game
  history : List HistoryRecord
deriving DecidableEq

/-- The move handler's effect on storage: every failure branch returns
before any `UPDATE`/`INSERT`, so the store is written only on success —
the updated game row plus the new history row, when one is emitted. -/
def moveS (s : Store) (playerId : Nat) (position : Option ℚ) (now : Nat) :
    Store × Except MoveError Game :=
  match move s.game playerId position now with
  | Except.error e => (s, Except.error e)
  | Except.ok (g, rec) =>
    ({ game := some g, history := s.history ++ rec.toList }, Except.ok g)

/-- `game_history WHERE player_x_id = $1 OR player_o_id = $1` — the user
took part in the recorded game. -/
def userParticipates (userId : Nat) (h : HistoryRecord) : Bool :=
  h.player_x_id == userId || h.player_o_id == some userId

/-- `GET /api/games/stats/me`: total games = count of history rows the user
took part in. -/
def totalGames (hist : List HistoryRecord) (userId : Nat) : Nat :=
  (hist.filter (userParticipates userId)).length

/-- `GET /api/games/stats/me`: wins = count of history rows with
`winner_id = $1`. -/
def winsCount (hist : List HistoryRecord) (userId : Nat) : Nat :=
  (hist.filter (fun h => h.winner_id == some userId)).length

/-- `GET /api/games/stats/me`: draws = count of history rows the user took
part in with `winner_id IS NULL`. -/
def drawsCount (hist : List HistoryRecord) (userId : Nat) : Nat :=
  (hist.filter (fun h => userParticipates userId h && h.winner_id == none)).length

/-- `GET /api/games/stats/me`: losses = total − wins − draws, computed in
JS number arithmetic (hence over ℤ, not truncated). -/
def lossesCount (hist : List HistoryRecord) (userId : Nat) : ℤ :=
  (totalGames hist userId : ℤ) - (winsCount hist userId : ℤ)
    - (drawsCount hist userId : ℤ)

/-- `g` evolves to `g₂` by `n` accepted moves (each one a `move` call that
returned success, by any actor at any position and time). -/
inductive MovesFrom : Game → Nat → Game → Prop
  | refl (g : Game) : MovesFrom g 0 g
  | step {g : Game} {n : Nat} {g₁ : Game} (pid : Nat) (pos : Option ℚ) (now : Nat)
      {g₂ : Game} {rec : Option HistoryRecord} :
      MovesFrom g n g₁ → move (some g₁) pid pos now = Except.ok (g₂, rec) →
      MovesFrom g (n + 1) g₂

/-- A concrete in-progress game between users 1 (X) and 2 (O), X to play,
empty board — used to instantiate theorems at concrete inputs. -/
def demoGame : Game :=
  { id := 1
    player_x_id := 1
    player_o_id := some 2
    board := List.replicate 9 Cell.empty
    current_turn := Player.X
    winner := none
    status := Status.in_progress
    created_at := 0
    finished_at := none }

/-- A concrete in-progress game where X has already played cell 0 and it
is O's turn. -/
def demoGameMid : Game :=
  { id := 1
    player_x_id := 1
    player_o_id := some 2
    board := [Cell.X, Cell.empty, Cell.empty, Cell.empty, Cell.empty,
              Cell.empty, Cell.empty, Cell.empty, Cell.empty]
    current_turn := Player.O
    winner := none
    status := Status.in_progress
    created_at := 0
    finished_at := none }

/-- A concrete finished game (X won the top row). -/
def finishedGame : Game :=
  { id := 1
    player_x_id := 1
    player_o_id := some 2
    board := [Cell.X, Cell.X, Cell.X, Cell.O, Cell.O,
              Cell.empty, Cell.empty, Cell.empty, Cell.empty]
    current_turn := Player.O
    winner := some Winner.X
    status := Status.finished
    created_at := 0
    finished_at := some 5 }

/-- A concrete in-progress game where X completes the top row by playing
cell 2. -/
def almostWonGame : Game :=
  { id := 1
    player_x_id := 1
    player_o_id := some 2
    board := [Cell.X, Cell.X, Cell.empty, Cell.O, Cell.O,
              Cell.empty, Cell.empty, Cell.empty, Cell.empty]
    current_turn := Player.X
    winner := none
    status := Status.in_progress
    created_at := 0
    finished_at := none }

/-- The game `almostWonGame` becomes after X plays cell 2 at time 7. -/
def wonGame : Game :=
  { id := 1
    player_x_id := 1
    player_o_id := some 2
    board := [Cell.X, Cell.X, Cell.X, Cell.O, Cell.O,
              Cell.empty, Cell.empty, Cell.empty, Cell.empty]
    current_turn := Player.O
    winner := some Winner.X
    status := Status.finished
    created_at := 0
    finished_at := some 7 }

/-- The history row emitted when `almostWonGame` finishes. -/
def wonRecord : HistoryRecord :=
  { game_id := 1
    player_x_id := 1
    player_o_id := some 2
    winner_id := some 1
    moves_count := 5 }

/-- Inversion of a successful move: every guard was passed and the result
is the accepted-move tail. -/
theorem move_ok_elim {store : Option Game} {pid : Nat} {pos : Option ℚ} {now : Nat}
    {g' : Game} {rec : Option HistoryRecord}
    (h : move store pid pos now = Except.ok (g', rec)) :
    ∃ game q s, store = some game ∧ pos = some q ∧ ¬(q < 0 ∨ q > 8) ∧
      game.status = Status.in_progress ∧ symbolOf game pid = some s ∧
      game.current_turn = s ∧ jsIndex game.board q = some Cell.empty ∧
      applyMove game s q.num.toNat now = (g', rec) := by
  cases pos with
  | none => exact Except.noConfusion h
  | some q =>
    cases store with
    | none =>
      simp only [move] at h
      split at h
      · exact Except.noConfusion h
      · exact Except.noConfusion h
    | some game =>
      simp only [move] at h
      split at h
      · exact Except.noConfusion h
      next hq =>
        split at h
        · exact Except.noConfusion h
        next hst =>
          cases hs : symbolOf game pid with
          | none => rw [hs] at h; exact Except.noConfusion h
          | some s =>
            rw [hs] at h
            split at h
            · exact Except.noConfusion h
            next s' hs' =>
              have hss : s = s' := Option.some.inj hs'
              subst hss
              split at h
              · exact Except.noConfusion h
              next hturn =>
                split at h
                · exact Except.noConfusion h
                next hidx =>
                  exact ⟨game, q, s, rfl, rfl, hq, not_not.mp hst, hs,
                    not_not.mp hturn, not_not.mp hidx, Except.ok.inj h⟩

/-- A move whose guards all pass returns the accepted-move tail. -/
theorem move_ok_intro {game : Game} {pid : Nat} {q : ℚ} {s : Player} (now : Nat)
    (hq : ¬(q < 0 ∨ q > 8)) (hst : game.status = Status.in_progress)
    (hs : symbolOf game pid = some s) (hturn : game.current_turn = s)
    (hidx : jsIndex game.board q = some Cell.empty) :
    move (some game) pid (some q) now
      = Except.ok (applyMove game s q.num.toNat now) := by
  simp only [move, hq, if_false, hs]
  rw [if_neg (by simp [hst]), if_neg (by simp [hturn]), if_neg (by simp [hidx])]

/-- A move reaching the occupied-cell guard with `board[position] !== ''`
fails with CellOccupied. -/
theorem move_cellOccupied_intro {game : Game} {pid : Nat} {q : ℚ} {s : Player} (now : Nat)
    (hq : ¬(q < 0 ∨ q > 8)) (hst : game.status = Status.in_progress)
    (hs : symbolOf game pid = some s) (hturn : game.current_turn = s)
    (hidx : jsIndex game.board q ≠ some Cell.empty) :
    move (some game) pid (some q) now = Except.error MoveError.CellOccupied := by
  simp only [move, hq, if_false, hs]
  rw [if_neg (by simp [hst]), if_neg (by simp [hturn]), if_pos hidx]

/-- The pattern loop returns exactly the first triple, in list order,
satisfying `tripleWins`. -/
theorem firstWin_eq_find (board : List Cell) (ps : List (Nat × Nat × Nat)) :
    firstWin board ps
      = (ps.find? (tripleWins board)).bind (fun t => Cell.winner (cellAt board t.1)) := by
  induction ps with
  | nil => rfl
  | cons t rest ih =>
    obtain ⟨a, b, c⟩ := t
    by_cases h : tripleWins board (a, b, c)
    · simp only [firstWin, List.find?]
      rw [h]
      simp only [tripleWins] at h
      rw [if_pos h]
      rfl
    · rw [Bool.not_eq_true] at h
      simp only [firstWin, List.find?]
      rw [h]
      simp only [tripleWins] at h
      rw [if_neg (by simp [h]), ih]

/-- C1: for every 9-cell board over {empty, X, O}, `checkWinner` returns
exactly the outcome described by the spec: the common symbol of the first
of the 8 fixed triples (3 rows, 3 columns, 2 diagonals, in the listed
order) whose three cells are all non-empty and equal; Draw when no triple
wins and no cell is empty; no decision (`null`) otherwise.  Being a Lean
function of the board, it is pure and deterministic. -/
theorem checkWinner_matches_spec (board : List Cell) (hlen : board.length = 9) :
    checkWinner board = specOutcome board := by
  unfold checkWinner specOutcome
  rw [firstWin_eq_find]
  cases hf : winPatterns.find? (tripleWins board) with
  | none => rfl
  | some t =>
    have ht : tripleWins board t = true := List.find?_some hf
    obtain ⟨a, b, c⟩ := t
    simp only [tripleWins, Bool.and_eq_true, bne_iff_ne, ne_eq, beq_iff_eq] at ht
    cases hc : cellAt board a with
    | empty => exact absurd hc ht.1.1
    | X => simp [hc, Cell.winner]
    | O => simp [hc, Cell.winner]

/-- Witness for C1 at a concrete 9-cell board (X has won the top row). -/
theorem checkWinner_matches_spec_witness :
    let b := [Cell.X, Cell.X, Cell.X, Cell.O, Cell.O,
              Cell.empty, Cell.empty, Cell.empty, Cell.empty]
    b.length = 9 ∧ checkWinner b = specOutcome b ∧ checkWinner b = some Winner.X :=
  ⟨by decide, checkWinner_matches_spec _ (by decide), by decide⟩

/-- Both branches of the accepted-move tail flip the turn to the other
symbol. -/
theorem applyMove_current_turn (game : Game) (s : Player) (i now : Nat) :
    (applyMove game s i now).1.current_turn = otherPlayer s := by
  simp only [applyMove]
  cases checkWinner (game.board.set i (Cell.ofPlayer s)) <;> cases s <;> rfl

/-- Both branches of the accepted-move tail write exactly the played cell. -/
theorem applyMove_board (game : Game) (s : Player) (i now : Nat) :
    (applyMove game s i now).1.board = game.board.set i (Cell.ofPlayer s) := by
  simp only [applyMove]
  cases checkWinner (game.board.set i (Cell.ofPlayer s)) <;> rfl

/-- The finishing branch of the accepted-move tail, explicitly. -/
theorem applyMove_finish (game : Game) (s : Player) (i now : Nat) (w : Winner)
    (hw : checkWinner (game.board.set i (Cell.ofPlayer s)) = some w) :
    applyMove game s i now
      = ({ game with
            board := game.board.set i (Cell.ofPlayer s)
            current_turn := otherPlayer s
            winner := some w
            status := Status.finished
            finished_at := some now },
         some { game_id := game.id
                player_x_id := game.player_x_id
                player_o_id := game.player_o_id
                winner_id := winnerRef game w
                moves_count := ((game.board.set i (Cell.ofPlayer s)).filter
                    (fun cell => cell != Cell.empty)).length }) := by
  simp only [applyMove, hw]
  cases s <;> rfl

/-- The game-continues branch of the accepted-move tail, explicitly. -/
theorem applyMove_continue (game : Game) (s : Player) (i now : Nat)
    (hw : checkWinner (game.board.set i (Cell.ofPlayer s)) = none) :
    applyMove game s i now
      = ({ game with
            board := game.board.set i (Cell.ofPlayer s)
            current_turn := otherPlayer s }, none) := by
  simp only [applyMove, hw]
  cases s <;> rfl

/-- An accepted move that emitted no history row took the game-continues
branch. -/
theorem applyMove_none_elim {game : Game} {s : Player} {i now : Nat} {g' : Game}
    (hap : applyMove game s i now = (g', none)) :
    checkWinner (game.board.set i (Cell.ofPlayer s)) = none ∧
    g' = { game with
            board := game.board.set i (Cell.ofPlayer s)
            current_turn := otherPlayer s } := by
  cases hw : checkWinner (game.board.set i (Cell.ofPlayer s)) with
  | some w =>
    rw [applyMove_finish game s i now w hw] at hap
    exact absurd (congrArg Prod.snd hap) (by simp)
  | none =>
    rw [applyMove_continue game s i now hw] at hap
    exact ⟨rfl, (congrArg Prod.fst hap).symm⟩

/-- A defined JS array read means: the index is a natural number within
range and the element is the value read. -/
theorem jsIndex_some_elim {board : List Cell} {q : ℚ} {c : Cell}
    (h : jsIndex board q = some c) :
    q = ((q.num.toNat : ℕ) : ℚ) ∧ q.num.toNat < board.length ∧
      cellAt board q.num.toNat = c := by
  unfold jsIndex at h
  split at h
  next hcond =>
    obtain ⟨hden, hnum0, hlt⟩ := hcond
    refine ⟨?_, by omega, Option.some.inj h⟩
    have h1 : ((q.num : ℤ) : ℚ) = q := (Rat.den_eq_one_iff q).mp hden
    have h2 : ((q.num.toNat : ℕ) : ℤ) = q.num := Int.toNat_of_nonneg hnum0
    calc q = ((q.num : ℤ) : ℚ) := h1.symm
    _ = (((q.num.toNat : ℕ) : ℤ) : ℚ) := by rw [h2]
    _ = ((q.num.toNat : ℕ) : ℚ) := by norm_cast
  next => exact Option.noConfusion h

/-- A JS array read at a natural index within range yields the element. -/
theorem jsIndex_natCast (board : List Cell) {i : ℕ} (h : i < board.length) :
    jsIndex board ((i : ℕ) : ℚ) = some (cellAt board i) := by
  unfold jsIndex
  rw [if_pos]
  · norm_num
  · refine ⟨by norm_num, by norm_num, ?_⟩
    norm_num
    exact_mod_cast h

/-- A natural position at most 8 passes the position guard. -/
theorem natPos_valid {i : ℕ} (hi : i ≤ 8) :
    ¬(((i : ℕ) : ℚ) < 0 ∨ ((i : ℕ) : ℚ) > 8) := by
  rintro (h | h)
  · exact absurd h (not_lt.mpr (by positivity))
  · have h8 : ((8 : ℕ) : ℚ) < ((i : ℕ) : ℚ) := by exact_mod_cast h
    exact absurd (Nat.cast_lt.mp h8) (by omega)

/-- Reading back the cell just written. -/
theorem cellAt_set_self {l : List Cell} {i : Nat} (h : i < l.length) (a : Cell) :
    cellAt (l.set i a) i = a := by
  unfold cellAt
  rw [List.getD_eq_getElem _ _ (by simpa using h)]
  exact List.getElem_set_self _

/-- C2: an accepted move whose resulting board evaluates to a decision (X,
O or Draw) sets the winner to that decision, sets status to Finished, sets
the finish timestamp, advances the turn to the other symbol even though
the game finished, and emits exactly one history record carrying the game
reference, both player references, the winner's user reference (null on a
draw) and a move count equal to the number of non-empty cells at finish. -/
theorem move_finish_effects {game : Game} {pid : Nat} {pos : Option ℚ} {now : Nat}
    {g' : Game} {rec : Option HistoryRecord} {w : Winner}
    (h : move (some game) pid pos now = Except.ok (g', rec))
    (hw : checkWinner g'.board = some w) :
    g'.winner = some w ∧ g'.status = Status.finished ∧ g'.finished_at = some now ∧
    g'.current_turn = otherPlayer game.current_turn ∧
    rec = some { game_id := game.id
                 player_x_id := game.player_x_id
                 player_o_id := game.player_o_id
                 winner_id := winnerRef game w
                 moves_count :=
                   (g'.board.filter (fun cell => cell != Cell.empty)).length } ∧
    ∀ hist : List HistoryRecord,
      (moveS ⟨some game, hist⟩ pid pos now).1.game = some g' ∧
      (moveS ⟨some game, hist⟩ pid pos now).1.history = hist ++ rec.toList := by
  obtain ⟨game₀, q, s, hstore, hpos, hq, hst, hs, hturn, hidx, hap⟩ := move_ok_elim h
  cases Option.some.inj hstore
  subst hpos
  have hg0 : (applyMove game s q.num.toNat now).1 = g' := congrArg Prod.fst hap
  have hb : g'.board = game.board.set q.num.toNat (Cell.ofPlayer s) := by
    rw [← hg0, applyMove_board]
  rw [hb] at hw
  rw [applyMove_finish game s q.num.toNat now w hw] at hap
  injection hap with hg hr
  refine ⟨?_, ?_, ?_, ?_, ?_, ?_⟩
  · rw [← hg]
  · rw [← hg]
  · rw [← hg]
  · rw [← hg, hturn]
  · rw [← hr, hb]
  · intro hist
    constructor <;> simp [moveS, h]

/-- C7: an accepted move whose resulting board evaluates to no decision
updates only the board (the single played cell gets the actor's symbol)
and the turn (alternated to the other symbol); winner, status, both player
references, created_at and finished_at are unchanged, and no history
record is emitted. -/
theorem move_no_decision_frame {game : Game} {pid : Nat} {pos : Option ℚ} {now : Nat}
    {g' : Game} {rec : Option HistoryRecord}
    (h : move (some game) pid pos now = Except.ok (g', rec))
    (hnd : checkWinner g'.board = none) :
    rec = none ∧
    (∃ i : ℕ, pos = some ((i : ℕ) : ℚ) ∧ i < game.board.length ∧
      cellAt game.board i = Cell.empty ∧
      g'.board = game.board.set i (Cell.ofPlayer game.current_turn)) ∧
    g'.current_turn = otherPlayer game.current_turn ∧
    g'.winner = game.winner ∧ g'.status = game.status ∧
    g'.player_x_id = game.player_x_id ∧ g'.player_o_id = game.player_o_id ∧
    g'.created_at = game.created_at ∧ g'.finished_at = game.finished_at ∧
    g'.id = game.id := by
  obtain ⟨game₀, q, s, hstore, hpos, hq, hst, hs, hturn, hidx, hap⟩ := move_ok_elim h
  cases Option.some.inj hstore
  subst hpos
  obtain ⟨hqe, hlt, hcell⟩ := jsIndex_some_elim hidx
  have hg0 : (applyMove game s q.num.toNat now).1 = g' := congrArg Prod.fst hap
  have hb : g'.board = game.board.set q.num.toNat (Cell.ofPlayer s) := by
    rw [← hg0, applyMove_board]
  rw [hb] at hnd
  rw [applyMove_continue game s q.num.toNat now hnd] at hap
  injection hap with hg hr
  refine ⟨hr.symm, ⟨q.num.toNat, by rw [← hqe], hlt, hcell, by rw [← hg, hturn]⟩,
    by rw [← hg, hturn], by rw [← hg], by rw [← hg], by rw [← hg], by rw [← hg],
    by rw [← hg], by rw [← hg], by rw [← hg]⟩

/-- C3: the move operation fails with exactly the listed typed failures
under their stated conditions — InvalidPosition for every position not in
[0,8] (including `undefined`), decided before any state lookup; NotFound
when the game is absent; InvalidState when status is not InProgress;
Forbidden when the actor is neither player; WrongTurn when the actor's
symbol differs from the current turn; CellOccupied when the targeted cell
is non-empty — and succeeds whenever none of these conditions holds. -/
theorem move_error_characterization (store : Option Game) (pid : Nat)
    (pos : Option ℚ) (now : Nat) :
    ((pos = none ∨ ∃ q : ℚ, pos = some q ∧ (q < 0 ∨ q > 8)) →
      move store pid pos now = Except.error MoveError.InvalidPosition) ∧
    (∀ i : ℕ, i ≤ 8 → pos = some ((i : ℕ) : ℚ) →
      (store = none → move store pid pos now = Except.error MoveError.NotFound) ∧
      (∀ game : Game, store = some game → game.board.length = 9 →
        (game.status ≠ Status.in_progress →
          move store pid pos now = Except.error MoveError.InvalidState) ∧
        (game.status = Status.in_progress →
          (symbolOf game pid = none →
            move store pid pos now = Except.error MoveError.Forbidden) ∧
          (∀ s : Player, symbolOf game pid = some s →
            (game.current_turn ≠ s →
              move store pid pos now = Except.error MoveError.WrongTurn) ∧
            (game.current_turn = s →
              (cellAt game.board i ≠ Cell.empty →
                move store pid pos now = Except.error MoveError.CellOccupied) ∧
              (cellAt game.board i = Cell.empty →
                ∃ g' rec, move store pid pos now = Except.ok (g', rec))))))) := by
  constructor
  · rintro (rfl | ⟨q, rfl, hq⟩)
    · rfl
    · simp only [move, if_pos hq]
  · rintro i hi rfl
    have hvq := natPos_valid hi
    constructor
    · rintro rfl
      simp only [move, if_neg hvq]
    · rintro game rfl hlen
      have hji : jsIndex game.board ((i : ℕ) : ℚ) = some (cellAt game.board i) :=
        jsIndex_natCast game.board (by omega)
      constructor
      · intro hst
        simp only [move, if_neg hvq, if_pos hst]
      · intro hst
        constructor
        · intro hsym
          simp only [move, if_neg hvq, if_neg (not_not.mpr hst), hsym]
        · intro s hsym
          constructor
          · intro hturn
            simp only [move, if_neg hvq, if_neg (not_not.mpr hst), hsym,
              if_pos hturn]
          · intro hturn
            constructor
            · intro hocc
              refine move_cellOccupied_intro now hvq hst hsym hturn ?_
              rw [hji]
              exact fun hcon => hocc (Option.some.inj hcon)
            · intro hocc
              refine ⟨(applyMove game s (((i : ℕ) : ℚ)).num.toNat now).1,
                (applyMove game s (((i : ℕ) : ℚ)).num.toNat now).2, ?_⟩
              rw [move_ok_intro now hvq hst hsym hturn (by rw [hji, hocc])]

/-- Witness for C3: each failure clause, and the success clause, applied
at concrete inputs. -/
theorem move_error_characterization_witness :
    move (some demoGame) 1 (some 10) 0 = Except.error MoveError.InvalidPosition ∧
    move none 1 (some ((3 : ℕ) : ℚ)) 0 = Except.error MoveError.NotFound ∧
    move (some finishedGame) 1 (some ((3 : ℕ) : ℚ)) 0
      = Except.error MoveError.InvalidState ∧
    move (some demoGame) 7 (some ((3 : ℕ) : ℚ)) 0
      = Except.error MoveError.Forbidden ∧
    move (some demoGame) 2 (some ((3 : ℕ) : ℚ)) 0
      = Except.error MoveError.WrongTurn ∧
    move (some demoGameMid) 2 (some ((0 : ℕ) : ℚ)) 0
      = Except.error MoveError.CellOccupied ∧
    (∃ g' rec, move (some demoGame) 1 (some ((4 : ℕ) : ℚ)) 0
      = Except.ok (g', rec)) := by
  refine ⟨?_, ?_, ?_, ?_, ?_, ?_, ?_⟩
  · exact (move_error_characterization (some demoGame) 1 (some 10) 0).1
      (Or.inr ⟨10, rfl, Or.inr (by norm_num)⟩)
  · exact ((move_error_characterization none 1 (some ((3 : ℕ) : ℚ)) 0).2
      3 (by omega) rfl).1 rfl
  · exact (((move_error_characterization (some finishedGame) 1
      (some ((3 : ℕ) : ℚ)) 0).2 3 (by omega) rfl).2 finishedGame rfl
      (by decide)).1 (by decide)
  · exact ((((move_error_characterization (some demoGame) 7
      (some ((3 : ℕ) : ℚ)) 0).2 3 (by omega) rfl).2 demoGame rfl
      (by decide)).2 (by decide)).1 (by decide)
  · exact (((((move_error_characterization (some demoGame) 2
      (some ((3 : ℕ) : ℚ)) 0).2 3 (by omega) rfl).2 demoGame rfl
      (by decide)).2 (by decide)).2 Player.O (by decide)).1 (by decide)
  · exact ((((((move_error_characterization (some demoGameMid) 2
      (some ((0 : ℕ) : ℚ)) 0).2 0 (by omega) rfl).2 demoGameMid rfl
      (by decide)).2 (by decide)).2 Player.O (by decide)).2 (by decide)).1
      (by decide)
  · exact ((((((move_error_characterization (some demoGame) 1
      (some ((4 : ℕ) : ℚ)) 0).2 4 (by omega) rfl).2 demoGame rfl
      (by decide)).2 (by decide)).2 Player.X (by decide)).2 (by decide)).2
      (by decide)

/-- Every accepted move flips the turn to the other symbol (in both the
finishing and the continuing branch). -/
theorem move_flips_turn {g₁ : Game} {pid : Nat} {pos : Option ℚ} {now : Nat}
    {g₂ : Game} {rec : Option HistoryRecord}
    (h : move (some g₁) pid pos now = Except.ok (g₂, rec)) :
    g₂.current_turn = otherPlayer g₁.current_turn := by
  obtain ⟨game, q, s, hstore, hpos, hq, hst, hs, hturn, hidx, hap⟩ := move_ok_elim h
  cases Option.some.inj hstore
  have hg0 : (applyMove g₁ s q.num.toNat now).1 = g₂ := congrArg Prod.fst hap
  rw [← hg0, applyMove_current_turn, hturn]

/-- From a state with turn X, the turn after `n` accepted moves is X for
even `n` and O for odd `n`. -/
theorem movesFrom_parity {g0 : Game} (h0 : g0.current_turn = Player.X)
    {N : Nat} {g : Game} (hm : MovesFrom g0 N g) :
    g.current_turn = (if N % 2 = 0 then Player.X else Player.O) := by
  induction hm with
  | refl => simpa using h0
  | @step n g₁ pid pos now g₂ rec hprev hmove ih =>
    rw [move_flips_turn hmove, ih]
    by_cases hn : n % 2 = 0
    · rw [if_pos hn, if_neg (by omega)]
      rfl
    · rw [if_neg hn, if_pos (by omega)]
      rfl

/-- C5: starting from a freshly created game (turn X) that an opponent has
joined (turn unchanged), after N accepted moves the current turn is X when
N is even and O when N is odd — the turn alternates strictly on every
accepted move. -/
theorem currentTurn_parity {creator gid t0 joiner : Nat} {gj : Game}
    (hj : join (some (createGame creator gid t0)) joiner = Except.ok gj)
    {N : Nat} {g : Game} (hm : MovesFrom gj N g) :
    g.current_turn = (if N % 2 = 0 then Player.X else Player.O) := by
  refine movesFrom_parity ?_ hm
  simp only [join, createGame, Option.isSome_none, Bool.false_eq_true,
    if_false] at hj
  split at hj
  · exact Except.noConfusion hj
  · split at hj
    · exact Except.noConfusion hj
    · cases Except.ok.inj hj
      rfl

/-- Witness for C5: user 1 creates, user 2 joins, zero accepted moves, the
turn is X. -/
theorem currentTurn_parity_witness :
    join (some (createGame 1 0 0)) 2
      = Except.ok { createGame 1 0 0 with
                     player_o_id := some 2, status := Status.in_progress } ∧
    ({ createGame 1 0 0 with
        player_o_id := some 2, status := Status.in_progress } : Game).current_turn
      = (if 0 % 2 = 0 then Player.X else Player.O) := by
  have hj : join (some (createGame 1 0 0)) 2
      = Except.ok { createGame 1 0 0 with
                     player_o_id := some 2, status := Status.in_progress } := by rfl
  exact ⟨hj, currentTurn_parity hj (MovesFrom.refl _)⟩

/-- C6: join fails with NotFound when no game has the id; with InvalidState
when the status is not Waiting; with SelfJoin when (the status is Waiting
and) the joiner is playerX; with AlreadyFull when playerO is already set;
and on success sets playerO to the joiner, sets status to InProgress, and
leaves currentTurn unchanged (so it remains X). -/
theorem join_characterization (store : Option Game) (pid : Nat) :
    (store = none → join store pid = Except.error JoinError.NotFound) ∧
    (∀ game : Game, store = some game →
      (game.status ≠ Status.waiting →
        join store pid = Except.error JoinError.InvalidState) ∧
      (game.status = Status.waiting →
        (game.player_x_id = pid →
          join store pid = Except.error JoinError.SelfJoin) ∧
        (game.player_x_id ≠ pid →
          (game.player_o_id.isSome →
            join store pid = Except.error JoinError.AlreadyFull) ∧
          (game.player_o_id = none →
            join store pid
              = Except.ok { game with player_o_id := some pid,
                                      status := Status.in_progress } ∧
            (∀ g' : Game, join store pid = Except.ok g' →
              g'.player_o_id = some pid ∧ g'.status = Status.in_progress ∧
              g'.current_turn = game.current_turn ∧
              (game.current_turn = Player.X → g'.current_turn = Player.X)))))) := by
  constructor
  · rintro rfl
    rfl
  · rintro game rfl
    constructor
    · intro hst
      simp only [join, if_pos hst]
    · intro hst
      constructor
      · intro hx
        simp only [join, if_neg (not_not.mpr hst), if_pos hx]
      · intro hx
        constructor
        · intro ho
          simp only [join, if_neg (not_not.mpr hst), if_neg hx, if_pos ho]
        · intro ho
          have hok : join (some game) pid
              = Except.ok { game with player_o_id := some pid,
                                      status := Status.in_progress } := by
            simp only [join, if_neg (not_not.mpr hst), if_neg hx, ho,
              Option.isSome_none, Bool.false_eq_true, if_false]
          refine ⟨hok, ?_⟩
          intro g' hg'
          rw [hok] at hg'
          cases Except.ok.inj hg'
          exact ⟨rfl, rfl, rfl, fun h => h⟩

/-- Witness for C6: each failure clause and the success clause at concrete
inputs. -/
theorem join_characterization_witness :
    join none 5 = Except.error JoinError.NotFound ∧
    join (some demoGame) 3 = Except.error JoinError.InvalidState ∧
    join (some (createGame 1 0 0)) 1 = Except.error JoinError.SelfJoin ∧
    join (some { createGame 1 0 0 with player_o_id := some 9 }) 2
      = Except.error JoinError.AlreadyFull ∧
    join (some (createGame 1 0 0)) 2
      = Except.ok { createGame 1 0 0 with
                     player_o_id := some 2, status := Status.in_progress } := by
  refine ⟨?_, ?_, ?_, ?_, ?_⟩
  · exact (join_characterization none 5).1 rfl
  · exact ((join_characterization (some demoGame) 3).2 demoGame rfl).1
      (by intro hcon; exact Status.noConfusion hcon)
  · exact (((join_characterization (some (createGame 1 0 0)) 1).2 _ rfl).2
      rfl).1 rfl
  · exact ((((join_characterization
      (some { createGame 1 0 0 with player_o_id := some 9 }) 2).2 _ rfl).2
      rfl).2 (by decide)).1 rfl
  · exact (((((join_characterization (some (createGame 1 0 0)) 2).2 _ rfl).2
      rfl).2 (by decide)).2 rfl).1

/-- C4 counterexample: on a Finished game a move with position 10 fails
with InvalidPosition — a Validation failure, not a StateConflict in the
spec's taxonomy — so "always returns a state-conflict failure" is false as
stated for out-of-range positions. -/
theorem move_finished_not_always_state_conflict :
    finishedGame.status = Status.finished ∧
    move (some finishedGame) 2 (some 10) 0
      = Except.error MoveError.InvalidPosition ∧
    MoveError.InvalidPosition.isStateConflict = false := by
  refine ⟨rfl, ?_, rfl⟩
  simp only [move, if_pos (Or.inr (by norm_num : (10 : ℚ) > 8))]

/-- C4 (amended): for every game with status Finished, no move succeeds
and the stored game is unchanged; every move whose position passes
validation (an in-range position) fails with the state-conflict failure
InvalidState regardless of the actor, while an out-of-range or missing
position fails with InvalidPosition. -/
theorem move_finished_never_succeeds (game : Game)
    (hfin : game.status = Status.finished) (pid : Nat) (pos : Option ℚ)
    (now : Nat) (hist : List HistoryRecord) :
    (∃ e : MoveError, move (some game) pid pos now = Except.error e) ∧
    (moveS ⟨some game, hist⟩ pid pos now).1 = ⟨some game, hist⟩ ∧
    (∀ q : ℚ, pos = some q → ¬(q < 0 ∨ q > 8) →
      move (some game) pid pos now = Except.error MoveError.InvalidState ∧
      MoveError.InvalidState.isStateConflict = true) := by
  have hne : game.status ≠ Status.in_progress := by
    rw [hfin]
    exact fun hcon => Status.noConfusion hcon
  have herr : ∃ e : MoveError, move (some game) pid pos now = Except.error e := by
    cases pos with
    | none => exact ⟨MoveError.InvalidPosition, rfl⟩
    | some q =>
      by_cases hq : q < 0 ∨ q > 8
      · exact ⟨MoveError.InvalidPosition, by simp only [move, if_pos hq]⟩
      · exact ⟨MoveError.InvalidState,
          by simp only [move, if_neg hq, if_pos hne]⟩
  obtain ⟨e, he⟩ := herr
  refine ⟨⟨e, he⟩, by simp only [moveS, he], ?_⟩
  rintro q rfl hq
  exact ⟨by simp only [move, if_neg hq, if_pos hne], rfl⟩

/-- Witness for C4's amended theorem at the concrete finished game. -/
theorem move_finished_never_succeeds_witness :
    finishedGame.status = Status.finished ∧
    (∃ e : MoveError,
      move (some finishedGame) 2 (some ((5 : ℕ) : ℚ)) 0 = Except.error e) ∧
    (moveS ⟨some finishedGame, []⟩ 2 (some ((5 : ℕ) : ℚ)) 0).1
      = ⟨some finishedGame, []⟩ ∧
    move (some finishedGame) 2 (some ((5 : ℕ) : ℚ)) 0
      = Except.error MoveError.InvalidState := by
  have h := move_finished_never_succeeds finishedGame rfl 2
    (some ((5 : ℕ) : ℚ)) 0 []
  exact ⟨rfl, h.1, h.2.1, (h.2.2 _ rfl (natPos_valid (by omega))).1⟩

/-- C9: for every user and every set of history records, the derived
statistics satisfy wins + losses + draws = totalGames, where totalGames
counts the records the user took part in, wins counts those the user won,
draws counts participations with no winner, and losses is computed as
total − wins − draws. -/
theorem stats_identity (hist : List HistoryRecord) (userId : Nat) :
    (winsCount hist userId : ℤ) + lossesCount hist userId
      + (drawsCount hist userId : ℤ) = (totalGames hist userId : ℤ) := by
  unfold lossesCount
  ring

/-- C10: a non-integer numeric position strictly between 0 and 8 passes
the position guard (which only tests undefined, < 0 and > 8); on an
in-progress game where it is the actor's turn the move then fails with
CellOccupied — indexing the board at a non-integer yields `undefined`,
which differs from the empty string — and the stored game is unchanged. -/
theorem move_noninteger_position {q : ℚ} (h0 : 0 < q) (h8 : q < 8)
    (hden : q.den ≠ 1) {game : Game} {pid : Nat}
    (hst : game.status = Status.in_progress)
    (hsym : symbolOf game pid = some game.current_turn)
    (hist : List HistoryRecord) (now : Nat) :
    move (some game) pid (some q) now = Except.error MoveError.CellOccupied ∧
    moveS ⟨some game, hist⟩ pid (some q) now
      = (⟨some game, hist⟩, Except.error MoveError.CellOccupied) := by
  have hq : ¬(q < 0 ∨ q > 8) := by
    rintro (h | h)
    · linarith
    · linarith
  have hidx : jsIndex game.board q = none := by
    unfold jsIndex
    rw [if_neg]
    rintro ⟨hd, -, -⟩
    exact hden hd
  have herr : move (some game) pid (some q) now
      = Except.error MoveError.CellOccupied :=
    move_cellOccupied_intro now hq hst hsym rfl
      (by rw [hidx]; exact fun hcon => Option.noConfusion hcon)
  exact ⟨herr, by simp only [moveS, herr]⟩

/-- Witness for C10 at position 9/2 on a concrete in-progress game. -/
theorem move_noninteger_position_witness :
    (0 : ℚ) < 9 / 2 ∧ (9 / 2 : ℚ) < 8 ∧ (9 / 2 : ℚ).den ≠ 1 ∧
    demoGame.status = Status.in_progress ∧
    symbolOf demoGame 1 = some demoGame.current_turn ∧
    moveS ⟨some demoGame, []⟩ 1 (some (9 / 2)) 0
      = (⟨some demoGame, []⟩, Except.error MoveError.CellOccupied) := by
  refine ⟨by norm_num, by norm_num, by norm_num, rfl, rfl, ?_⟩
  exact (move_noninteger_position (by norm_num) (by norm_num) (by norm_num)
    (show demoGame.status = Status.in_progress from rfl)
    (show symbolOf demoGame 1 = some demoGame.current_turn from rfl) [] 0).2

/-- Witness for C2: X completes the top row; winner, status, timestamp,
turn and history record all come out as the claim states. -/
theorem move_finish_effects_witness :
    move (some almostWonGame) 1 (some ((2 : ℕ) : ℚ)) 7
      = Except.ok (wonGame, some wonRecord) ∧
    checkWinner wonGame.board = some Winner.X ∧
    wonGame.winner = some Winner.X ∧
    wonGame.status = Status.finished ∧
    wonGame.finished_at = some 7 ∧
    wonGame.current_turn = otherPlayer almostWonGame.current_turn ∧
    (some wonRecord : Option HistoryRecord)
      = some { game_id := almostWonGame.id
               player_x_id := almostWonGame.player_x_id
               player_o_id := almostWonGame.player_o_id
               winner_id := winnerRef almostWonGame Winner.X
               moves_count :=
                 (wonGame.board.filter (fun cell => cell != Cell.empty)).length } := by
  have h : move (some almostWonGame) 1 (some ((2 : ℕ) : ℚ)) 7
      = Except.ok (wonGame, some wonRecord) := by rfl
  have hw : checkWinner wonGame.board = some Winner.X := by rfl
  have hc := move_finish_effects h hw
  exact ⟨h, hw, hc.1, hc.2.1, hc.2.2.1, hc.2.2.2.1, hc.2.2.2.2.1⟩

/-- Witness for C7: X opens at cell 0 on the empty board; only board and
turn change, no history record is emitted. -/
theorem move_no_decision_frame_witness :
    move (some demoGame) 1 (some ((0 : ℕ) : ℚ)) 0
      = Except.ok (demoGameMid, none) ∧
    checkWinner demoGameMid.board = none ∧
    demoGameMid.current_turn = otherPlayer demoGame.current_turn ∧
    demoGameMid.winner = demoGame.winner ∧
    demoGameMid.status = demoGame.status ∧
    demoGameMid.finished_at = demoGame.finished_at := by
  have h : move (some demoGame) 1 (some ((0 : ℕ) : ℚ)) 0
      = Except.ok (demoGameMid, none) := by rfl
  have hnd : checkWinner demoGameMid.board = none := by rfl
  have hc := move_no_decision_frame h hnd
  exact ⟨h, hnd, hc.2.2.1, hc.2.2.2.1, hc.2.2.2.2.1, hc.2.2.2.2.2.2.2.2.1⟩

/-- C8: a move is atomic — on every failure branch the stored state (game
row and history table) is unchanged; and after an accepted non-finishing
move, a second move targeting the same cell (by the player now on turn)
fails with CellOccupied and leaves the store unchanged. -/
theorem move_atomicity :
    (∀ (s : Store) (pid : Nat) (pos : Option ℚ) (now : Nat) (e : MoveError),
      (moveS s pid pos now).2 = Except.error e → (moveS s pid pos now).1 = s) ∧
    (∀ (game : Game) (pid : Nat) (pos : Option ℚ) (now pid' now' : Nat)
      (g' : Game) (hist : List HistoryRecord),
      move (some game) pid pos now = Except.ok (g', none) →
      symbolOf g' pid' = some g'.current_turn →
      moveS ⟨some g', hist⟩ pid' pos now'
        = (⟨some g', hist⟩, Except.error MoveError.CellOccupied)) := by
  constructor
  · intro s pid pos now e h
    cases hmv : move s.game pid pos now with
    | error e2 => simp only [moveS, hmv]
    | ok p =>
      obtain ⟨g, rec⟩ := p
      simp only [moveS, hmv] at h
      exact Except.noConfusion h
  · intro game pid pos now pid' now' g' hist h hsym
    obtain ⟨game₀, q, s, hstore, hpos, hq, hst, hs, hturn, hidx, hap⟩ :=
      move_ok_elim h
    cases Option.some.inj hstore
    subst hpos
    obtain ⟨hqe, hlt, hcell⟩ := jsIndex_some_elim hidx
    obtain ⟨hw, hg⟩ := applyMove_none_elim hap
    have hstat : g'.status = Status.in_progress := by rw [hg]; exact hst
    have hboard : g'.board = game.board.set q.num.toNat (Cell.ofPlayer s) := by
      rw [hg]
    have hlen2 : q.num.toNat < g'.board.length := by
      rw [hboard, List.length_set]
      exact hlt
    have hcell2 : cellAt g'.board q.num.toNat = Cell.ofPlayer s := by
      rw [hboard]
      exact cellAt_set_self hlt _
    have hidx2 : jsIndex g'.board q ≠ some Cell.empty := by
      have h3 : jsIndex g'.board ((q.num.toNat : ℕ) : ℚ)
          = some (cellAt g'.board q.num.toNat) := jsIndex_natCast g'.board hlen2
      rw [← hqe] at h3
      rw [h3, hcell2]
      intro hcon
      have h4 := Option.some.inj hcon
      cases s <;> exact Cell.noConfusion h4
    have herr : move (some g') pid' (some q) now'
        = Except.error MoveError.CellOccupied :=
      move_cellOccupied_intro now' hq hstat hsym rfl hidx2
    simp only [moveS, herr]

/-- Witness for C8: a failing move (game absent) leaves the store
unchanged; and after X opens at cell 0, O playing cell 0 fails with
CellOccupied and leaves the store unchanged. -/
theorem move_atomicity_witness :
    (moveS ⟨none, []⟩ 1 (some ((0 : ℕ) : ℚ)) 0).2
      = Except.error MoveError.NotFound ∧
    (moveS ⟨none, []⟩ 1 (some ((0 : ℕ) : ℚ)) 0).1 = ⟨none, []⟩ ∧
    move (some demoGame) 1 (some ((0 : ℕ) : ℚ)) 0
      = Except.ok (demoGameMid, none) ∧
    moveS ⟨some demoGameMid, []⟩ 2 (some ((0 : ℕ) : ℚ)) 5
      = (⟨some demoGameMid, []⟩, Except.error MoveError.CellOccupied) := by
  have h1 : (moveS ⟨none, []⟩ 1 (some ((0 : ℕ) : ℚ)) 0).2
      = Except.error MoveError.NotFound := by rfl
  have h3 : move (some demoGame) 1 (some ((0 : ℕ) : ℚ)) 0
      = Except.ok (demoGameMid, none) := by rfl
  refine ⟨h1, move_atomicity.1 ⟨none, []⟩ 1 (some ((0 : ℕ) : ℚ)) 0
    MoveError.NotFound h1, h3, ?_⟩
  exact move_atomicity.2 demoGame 1 (some ((0 : ℕ) : ℚ)) 0 2 5 demoGameMid [] h3
    (show symbolOf demoGameMid 2 = some demoGameMid.current_turn from rfl)
